import Mathlib

/-!
Shallow embedding of the CIFRA reconciliation engine (src/recon_tool.py).

Amounts are modelled as rationals; `round2` models Python's two-decimal
rounding `round(x, 2)`.  The fuzzy string scorer (`fuzz.partial_ratio`, an
external library) is a parameter `score : String → String → Nat` on the 0-100
scale.  Row identifiers (`uuid.uuid4()` per surviving row) are modelled by an
id supply `ids : Nat → Nat` indexed by row position.
-/

namespace Recon

/-- Canonical normalized transaction, mirroring the columns
`row_id, date, name, memo, amount, name_lower` kept by
`load_and_preprocess_file`.  The date is the normalized date key (the
source joins on `date.dt.strftime` of the parsed date). -/
structure Tx where
  row_id : Nat
  date : String
  name : String
  memo : String
  amount : Rat
  name_lower : String
deriving DecidableEq, Repr

/-- Two-decimal rounding, modelling `round(x, 2)` / `.round(2)`. -/
def round2 (q : Rat) : Rat := (round (q * 100) : Int) / 100

/-- The inner equi-join `pd.merge(bank, ledger, on=[date_str, amount_rounded])`:
every (bank row, ledger row) pair with equal date key and equal rounded
amount, bank rows in order, ledger matches in order within each bank row. -/
def candidatePairs (bank ledger : List Tx) : List (Tx × Tx) :=
  bank.flatMap (fun b =>
    (ledger.filter (fun l =>
      decide (b.date = l.date ∧ round2 b.amount = round2 l.amount))).map
      (fun l => (b, l)))

/-- State of the greedy fuzzy-confirmation loop: the consumed bank ids
(`matched_bank_ids`), the consumed ledger ids (`matched_ledger_ids`), and the
pairs accepted so far. -/
structure GreedySt where
  matchedBank : List Nat
  matchedLedger : List Nat
  accepted : List (Tx × Tx)
deriving DecidableEq, Repr

/-- The fuzzy match threshold hardcoded in `perform_automatic_reconciliation`. -/
def fuzzy_match_threshold : Nat := 80

/-- One iteration of the loop over `merged_exact.iterrows()`: skip the pair if
either side is already consumed, otherwise accept it exactly when the score of
the two `name_lower` fields strictly exceeds the threshold. -/
def greedyStep (score : String → String → Nat) (s : GreedySt) (p : Tx × Tx) : GreedySt :=
  if p.1.row_id ∈ s.matchedBank ∨ p.2.row_id ∈ s.matchedLedger then s
  else if fuzzy_match_threshold < score p.1.name_lower p.2.name_lower then
    ⟨s.matchedBank ++ [p.1.row_id], s.matchedLedger ++ [p.2.row_id], s.accepted ++ [p]⟩
  else s

/-- Run the greedy fuzzy-confirmation loop over a candidate list. -/
def runGreedy (score : String → String → Nat) (cands : List (Tx × Tx)) : GreedySt :=
  cands.foldl (greedyStep score) ⟨[], [], []⟩

/-- The automatic pass: equi-join, greedy fuzzy confirmation, then return the
rows whose id was not consumed (`~matched` after `isin(matched_ids)`). -/
def perform_automatic_reconciliation (score : String → String → Nat)
    (bank ledger : List Tx) : List Tx × List Tx :=
  let g := runGreedy score (candidatePairs bank ledger)
  (bank.filter (fun t => decide (t.row_id ∉ g.matchedBank)),
   ledger.filter (fun t => decide (t.row_id ∉ g.matchedLedger)))

/-- Outcome reported by one manual reconciliation round: the early-return
warning on an empty selection, the stale-selection error, the success message
(selection sizes and the two rounded totals), or the sum-mismatch error
carrying the two rounded totals it displays. -/
inductive ManualResult where
  | emptySelection : ManualResult
  | notFound : ManualResult
  | success (nBank nLedger : Nat) (bankTotal ledgerTotal : Rat) : ManualResult
  | mismatch (bankTotal ledgerTotal : Rat) : ManualResult
deriving DecidableEq, Repr

/-- The discrepancy of a rejected round: the absolute difference of the two
rounded subset sums reported in the mismatch message. -/
def ManualResult.discrepancy : ManualResult → Rat
  | .mismatch b l => |b - l|
  | _ => 0

/-- One manual reconciliation round (`perform_manual_reconciliation`) acting on
the two current unmatched lists: warn if a selection is empty; error if the
found items on either side are empty; otherwise compare the rounded sums of
the found items and, on equality, remove the selected ids from both lists. -/
def perform_manual_reconciliation (selB selL : List Nat) (ub ul : List Tx) :
    ManualResult × List Tx × List Tx :=
  if selB = [] ∨ selL = [] then (.emptySelection, ub, ul)
  else
    let bank_items := ub.filter (fun t => decide (t.row_id ∈ selB))
    let ledger_items := ul.filter (fun t => decide (t.row_id ∈ selL))
    if bank_items = [] ∨ ledger_items = [] then (.notFound, ub, ul)
    else
      let bank_sum_amount := round2 ((bank_items.map Tx.amount).sum)
      let ledger_sum_amount := round2 ((ledger_items.map Tx.amount).sum)
      if bank_sum_amount = ledger_sum_amount then
        (.success selB.length selL.length bank_sum_amount ledger_sum_amount,
         ub.filter (fun t => decide (t.row_id ∉ selB)),
         ul.filter (fun t => decide (t.row_id ∉ selL)))
      else (.mismatch bank_sum_amount ledger_sum_amount, ub, ul)

/-- Session state: the full normalized frames (`bank_df_full`,
`ledger_df_full`, set once at load) and the two unmatched display lists. -/
structure Session where
  bank_df_full : List Tx
  ledger_df_full : List Tx
  unmatched_bank_display : List Tx
  unmatched_ledger_display : List Tx
deriving DecidableEq, Repr

/-- The bank total card: the amount sum over the full loaded bank frame. -/
def bank_total (s : Session) : Rat := (s.bank_df_full.map Tx.amount).sum

/-- The ledger total card: the amount sum over the full loaded ledger frame. -/
def ledger_total (s : Session) : Rat := (s.ledger_df_full.map Tx.amount).sum

/-- The difference card: signed `bank_total - ledger_total`. -/
def difference (s : Session) : Rat := bank_total s - ledger_total s

/-- Initial session: store the two full loaded frames and the unmatched lists
produced by the automatic pass. -/
def loadSession (score : String → String → Nat) (bank ledger : List Tx) : Session :=
  let p := perform_automatic_reconciliation score bank ledger
  ⟨bank, ledger, p.1, p.2⟩

/-- One manual round applied to a session: only the two unmatched display
lists are updated; the full frames are untouched. -/
def sessionManualStep (sel : List Nat × List Nat) (s : Session) : Session :=
  let r := perform_manual_reconciliation sel.1 sel.2
    s.unmatched_bank_display s.unmatched_ledger_display
  { s with unmatched_bank_display := r.2.1, unmatched_ledger_display := r.2.2 }

/-- Run a sequence of manual rounds against a session. -/
def runRounds (rounds : List (List Nat × List Nat)) (s : Session) : Session :=
  rounds.foldl (fun s r => sessionManualStep r s) s

/-- Engine state with ghost tracking of the ids committed as matched on each
side, for the closed-world invariant. -/
structure Engine where
  ub : List Tx
  ul : List Tx
  matchedBankIds : List Nat
  matchedLedgerIds : List Nat
deriving DecidableEq, Repr

/-- Engine state right after the automatic pass: the unmatched lists plus the
consumed ids recorded as committed. -/
def initEngine (score : String → String → Nat) (bank ledger : List Tx) : Engine :=
  let g := runGreedy score (candidatePairs bank ledger)
  ⟨bank.filter (fun t => decide (t.row_id ∉ g.matchedBank)),
   ledger.filter (fun t => decide (t.row_id ∉ g.matchedLedger)),
   g.matchedBank, g.matchedLedger⟩

/-- One manual round on the engine: on success the removed rows are recorded
as committed; on any failure the round returns the lists unchanged. -/
def engineManualStep (sel : List Nat × List Nat) (e : Engine) : Engine :=
  let r := perform_manual_reconciliation sel.1 sel.2 e.ub e.ul
  match r.1 with
  | .success _ _ _ _ =>
      ⟨r.2.1, r.2.2,
       e.matchedBankIds ++ (e.ub.filter (fun t => decide (t.row_id ∈ sel.1))).map Tx.row_id,
       e.matchedLedgerIds ++ (e.ul.filter (fun t => decide (t.row_id ∈ sel.2))).map Tx.row_id⟩
  | _ => ⟨r.2.1, r.2.2, e.matchedBankIds, e.matchedLedgerIds⟩

/-- A whole session on the engine: the automatic pass followed by a sequence
of manual rounds. -/
def runEngine (score : String → String → Nat) (bank ledger : List Tx)
    (rounds : List (List Nat × List Nat)) : Engine :=
  rounds.foldl (fun e r => engineManualStep r e) (initEngine score bank ledger)

/-- A raw input row after cell-level parsing: `dateCell` is the parsed date
(`pd.to_datetime(..., errors=coerce)`, none on failure), `amountCell` the
parsed explicit amount cell, `debitCell` and `creditCell` the parsed
debit/credit cells (none on failure). -/
structure RawRow where
  dateCell : Option String
  amountCell : Option Rat
  debitCell : Option Rat
  creditCell : Option Rat
  nameCell : String
  memoCell : String
deriving DecidableEq, Repr

/-- Which amount source the resolved schema provides: an explicit amount
column, or only debit and credit columns. -/
inductive AmountMode where
  | explicitCol : AmountMode
  | debitCredit : AmountMode
deriving DecidableEq, Repr

/-- The amount column value of a row: the parsed amount cell in explicit mode;
`credit - debit` with parse failures replaced by 0 (`fillna(0)`) in
debit/credit mode. -/
def rowAmount : AmountMode → RawRow → Option Rat
  | .explicitCol, r => r.amountCell
  | .debitCredit, r => some (r.creditCell.getD 0 - r.debitCell.getD 0)

/-- The comparison key `name_lower`: `str.lower().str.strip()`. -/
def name_key (s : String) : String := s.toLower.trim

/-- Assign fresh ids positionally to the surviving (row, amount) pairs and
build the final transactions, modelling the `row_id` / `name_lower` columns
added at the end of `load_and_preprocess_file`. -/
def mkTxs (ids : Nat → Nat) (k : Nat) : List (RawRow × Option Rat) → List Tx
  | [] => []
  | p :: ps =>
      ⟨ids k, p.1.dateCell.getD "", p.1.nameCell, p.1.memoCell, p.2.getD 0,
        name_key p.1.nameCell⟩ :: mkTxs ids (k + 1) ps

/-- The normalization pipeline of `load_and_preprocess_file` after schema
resolution: drop rows with unparseable dates, compute the amount column, drop
rows with unparseable amounts, drop zero amounts, then assign ids and the
comparison key. -/
def load_and_preprocess (ids : Nat → Nat) (mode : AmountMode) (rows : List RawRow) :
    List Tx :=
  let s1 := rows.filter (fun r => r.dateCell.isSome)
  let s2 := s1.map (fun r => (r, rowAmount mode r))
  let s3 := s2.filter (fun p => p.2.isSome)
  let s4 := s3.filter (fun p => decide (p.2 ≠ some 0))
  mkTxs ids 0 s4

/-- A row survives normalization exactly when its date parses, its amount is
obtainable, and the obtained amount is nonzero. -/
def keepRow (mode : AmountMode) (r : RawRow) : Bool :=
  r.dateCell.isSome && (rowAmount mode r).isSome && decide (rowAmount mode r ≠ some 0)

/-- The transaction derived from one surviving raw row. -/
def txFromRow (id : Nat) (mode : AmountMode) (r : RawRow) : Tx :=
  ⟨id, r.dateCell.getD "", r.nameCell, r.memoCell, (rowAmount mode r).getD 0,
    name_key r.nameCell⟩

/-- Build the transactions of a list of surviving rows, ids assigned
positionally from `k`. -/
def txsFromRows (ids : Nat → Nat) (mode : AmountMode) (k : Nat) : List RawRow → List Tx
  | [] => []
  | r :: rs => txFromRow (ids k) mode r :: txsFromRows ids mode (k + 1) rs

/-- A transaction with its id erased, for comparing normalization runs that
differ only in the id supply. -/
def eraseId (t : Tx) : Tx := { t with row_id := 0 }

/-- Fixture: a bank transaction, as in the spec example scenario 1. -/
def bAcme : Tx := ⟨1, "2024-01-05", "Acme Corp", "", 100, "acme corp"⟩

/-- Fixture: the matching ledger transaction of scenario 1. -/
def lAcme : Tx := ⟨2, "2024-01-05", "ACME CORPORATION", "", 100, "acme corporation"⟩

/-- Fixture: an unmatched bank transaction of amount 5. -/
def txBank5 : Tx := ⟨1, "2024-01-05", "a", "", 5, "a"⟩

/-- Fixture: an unmatched ledger transaction of amount 5. -/
def txLedger5 : Tx := ⟨2, "2024-01-05", "b", "", 5, "b"⟩

/-- Fixture: an unmatched ledger transaction of amount 6. -/
def txLedger6 : Tx := ⟨2, "2024-01-05", "b", "", 6, "b"⟩

/-- Invariant of the greedy loop state: the consumed id lists are exactly the
ids of the accepted pairs, on each side, and each is duplicate-free. -/
def GreedyInv (s : GreedySt) : Prop :=
  s.matchedBank = s.accepted.map (fun p => p.1.row_id)
  ∧ s.matchedLedger = s.accepted.map (fun p => p.2.row_id)
  ∧ s.matchedBank.Nodup ∧ s.matchedLedger.Nodup

lemma greedyStep_inv (score : String → String → Nat) (s : GreedySt) (p : Tx × Tx)
    (h : GreedyInv s) : GreedyInv (greedyStep score s p) := by
  obtain ⟨h1, h2, h3, h4⟩ := h
  unfold greedyStep
  split
  · exact ⟨h1, h2, h3, h4⟩
  · rename_i hmem
    push_neg at hmem
    split
    · refine ⟨by simp [h1], by simp [h2], ?_, ?_⟩
      · rw [List.nodup_append]
        exact ⟨h3, List.nodup_singleton _, by simpa using hmem.1⟩
      · rw [List.nodup_append]
        exact ⟨h4, List.nodup_singleton _, by simpa using hmem.2⟩
    · exact ⟨h1, h2, h3, h4⟩

lemma foldl_greedy_inv (score : String → String → Nat) (cands : List (Tx × Tx)) :
    ∀ s : GreedySt, GreedyInv s → GreedyInv (cands.foldl (greedyStep score) s) := by
  induction cands with
  | nil => intro s h; exact h
  | cons c cs ih => intro s h; exact ih _ (greedyStep_inv score s c h)

lemma runGreedy_inv (score : String → String → Nat) (cands : List (Tx × Tx)) :
    GreedyInv (runGreedy score cands) :=
  foldl_greedy_inv score cands ⟨[], [], []⟩ ⟨rfl, rfl, List.nodup_nil, List.nodup_nil⟩

lemma greedyStep_accepted (score : String → String → Nat) (s : GreedySt) (p : Tx × Tx) :
    (greedyStep score s p).accepted = s.accepted
    ∨ (greedyStep score s p).accepted = s.accepted ++ [p] := by
  unfold greedyStep
  split
  · exact Or.inl rfl
  · split
    · exact Or.inr rfl
    · exact Or.inl rfl

lemma foldl_accepted_sublist (score : String → String → Nat) (cands : List (Tx × Tx)) :
    ∀ s : GreedySt, ∃ t, (cands.foldl (greedyStep score) s).accepted = s.accepted ++ t
      ∧ t.Sublist cands := by
  induction cands with
  | nil => intro s; exact ⟨[], by simp, List.nil_sublist _⟩
  | cons c cs ih =>
    intro s
    obtain ⟨t, ht, hs⟩ := ih (greedyStep score s c)
    rcases greedyStep_accepted score s c with h | h
    · exact ⟨t, by simpa [h] using ht, hs.cons c⟩
    · refine ⟨c :: t, ?_, hs.cons₂ c⟩
      rw [List.foldl_cons, ht, h, List.append_assoc]
      rfl

lemma runGreedy_accepted_sublist (score : String → String → Nat) (cands : List (Tx × Tx)) :
    (runGreedy score cands).accepted.Sublist cands := by
  obtain ⟨t, ht, hs⟩ := foldl_accepted_sublist score cands ⟨[], [], []⟩
  unfold runGreedy
  rw [ht]
  simpa using hs

lemma mem_candidatePairs {bank ledger : List Tx} {p : Tx × Tx}
    (h : p ∈ candidatePairs bank ledger) :
    p.1 ∈ bank ∧ p.2 ∈ ledger
    ∧ p.1.date = p.2.date ∧ round2 p.1.amount = round2 p.2.amount := by
  simp only [candidatePairs, List.mem_flatMap, List.mem_map, List.mem_filter,
    decide_eq_true_eq] at h
  obtain ⟨b, hb, l, ⟨hl, hd, ha⟩, rfl⟩ := h
  exact ⟨hb, hl, hd, ha⟩

lemma greedyStep_bank_mono (score : String → String → Nat) (s : GreedySt) (p : Tx × Tx) :
    s.matchedBank ⊆ (greedyStep score s p).matchedBank := by
  unfold greedyStep
  split
  · exact fun _ h => h
  · split
    · exact fun x h => by simp [h]
    · exact fun _ h => h

lemma greedyStep_ledger_mono (score : String → String → Nat) (s : GreedySt) (p : Tx × Tx) :
    s.matchedLedger ⊆ (greedyStep score s p).matchedLedger := by
  unfold greedyStep
  split
  · exact fun _ h => h
  · split
    · exact fun x h => by simp [h]
    · exact fun _ h => h

lemma greedyStep_accepted_mono (score : String → String → Nat) (s : GreedySt) (p : Tx × Tx) :
    s.accepted ⊆ (greedyStep score s p).accepted := by
  rcases greedyStep_accepted score s p with h | h <;> rw [h]
  · exact fun _ h => h
  · exact fun x hx => by simp [hx]

lemma foldl_bank_mono (score : String → String → Nat) (cands : List (Tx × Tx)) :
    ∀ s : GreedySt, s.matchedBank ⊆ (cands.foldl (greedyStep score) s).matchedBank := by
  induction cands with
  | nil => intro s; exact fun _ h => h
  | cons c cs ih =>
    intro s
    exact fun x hx => ih (greedyStep score s c) (greedyStep_bank_mono score s c hx)

lemma foldl_ledger_mono (score : String → String → Nat) (cands : List (Tx × Tx)) :
    ∀ s : GreedySt, s.matchedLedger ⊆ (cands.foldl (greedyStep score) s).matchedLedger := by
  induction cands with
  | nil => intro s; exact fun _ h => h
  | cons c cs ih =>
    intro s
    exact fun x hx => ih (greedyStep score s c) (greedyStep_ledger_mono score s c hx)

lemma foldl_accepted_mono (score : String → String → Nat) (cands : List (Tx × Tx)) :
    ∀ s : GreedySt, s.accepted ⊆ (cands.foldl (greedyStep score) s).accepted := by
  induction cands with
  | nil => intro s; exact fun _ h => h
  | cons c cs ih =>
    intro s
    exact fun x hx => ih (greedyStep score s c) (greedyStep_accepted_mono score s c hx)

lemma cand_acme : candidatePairs [bAcme] [lAcme] = [(bAcme, lAcme)] := by
  simp [candidatePairs, bAcme, lAcme]

lemma greedy_acme81 :
    (runGreedy (fun _ _ => 81) (candidatePairs [bAcme] [lAcme])).accepted = [(bAcme, lAcme)] := by
  rw [cand_acme]
  simp [runGreedy, greedyStep, fuzzy_match_threshold, bAcme, lAcme]

/-- C4: every pair accepted by the automatic pass (exact-key equi-join followed
by the greedy fuzzy confirmation) joins a bank and a ledger transaction with
equal date keys and equal amounts after rounding to 2 decimals. -/
theorem exact_key_necessity (score : String → String → Nat) (bank ledger : List Tx)
    (p : Tx × Tx) (hp : p ∈ (runGreedy score (candidatePairs bank ledger)).accepted) :
    p.1.date = p.2.date ∧ round2 p.1.amount = round2 p.2.amount := by
  have hmem := (runGreedy_accepted_sublist score (candidatePairs bank ledger)).subset hp
  have h := mem_candidatePairs hmem
  exact ⟨h.2.2.1, h.2.2.2⟩

/-- Witness for C4: the Acme pair is accepted at score 81 and indeed has equal
date and equal rounded amount. -/
theorem exact_key_necessity_witness :
    (bAcme, lAcme) ∈ (runGreedy (fun _ _ => 81) (candidatePairs [bAcme] [lAcme])).accepted
    ∧ ((bAcme, lAcme).1.date = (bAcme, lAcme).2.date
      ∧ round2 (bAcme, lAcme).1.amount = round2 (bAcme, lAcme).2.amount) :=
  ⟨by simp [greedy_acme81],
   exact_key_necessity (fun _ _ => 81) [bAcme] [lAcme] (bAcme, lAcme) (by simp [greedy_acme81])⟩

/-- C5: within one automatic pass the accepted pairs form a subsequence of the
candidate pairs in equi-join order, and no bank id and no ledger id appears in
more than one accepted pair. -/
theorem greedy_one_to_one (score : String → String → Nat) (bank ledger : List Tx) :
    ((runGreedy score (candidatePairs bank ledger)).accepted.map (fun p => p.1.row_id)).Nodup
    ∧ ((runGreedy score (candidatePairs bank ledger)).accepted.map (fun p => p.2.row_id)).Nodup
    ∧ (runGreedy score (candidatePairs bank ledger)).accepted.Sublist
        (candidatePairs bank ledger) := by
  obtain ⟨h1, h2, h3, h4⟩ := runGreedy_inv score (candidatePairs bank ledger)
  exact ⟨h1 ▸ h3, h2 ▸ h4, runGreedy_accepted_sublist score (candidatePairs bank ledger)⟩

/-- Counterexample to C6: a candidate pair with equal date, equal rounded
amount and similarity score exactly 80 (which is at least the default
threshold 80) is rejected by the filter — the code requires the score to
strictly exceed the threshold — and both transactions stay unmatched. -/
theorem fuzzy_at_threshold_counterexample :
    (fun _ _ => (80 : Nat)) bAcme.name_lower lAcme.name_lower ≥ fuzzy_match_threshold
    ∧ (bAcme, lAcme) ∈ candidatePairs [bAcme] [lAcme]
    ∧ (runGreedy (fun _ _ => (80 : Nat)) (candidatePairs [bAcme] [lAcme])).accepted = []
    ∧ perform_automatic_reconciliation (fun _ _ => (80 : Nat)) [bAcme] [lAcme]
        = ([bAcme], [lAcme]) := by
  refine ⟨le_refl _, by simp [cand_acme], ?_, ?_⟩
  · rw [cand_acme]
    simp [runGreedy, greedyStep, fuzzy_match_threshold, bAcme, lAcme]
  · simp [perform_automatic_reconciliation, runGreedy, greedyStep, fuzzy_match_threshold,
      candidatePairs, bAcme, lAcme]

/-- C6 as amended: a candidate pair whose score STRICTLY exceeds the threshold
of 80, with neither side consumed by the earlier candidates, is accepted and
both of its transactions are removed from the unmatched pools. -/
theorem fuzzy_above_threshold_accepted (score : String → String → Nat)
    (bank ledger : List Tx) (pre post : List (Tx × Tx)) (b l : Tx)
    (hc : candidatePairs bank ledger = pre ++ (b, l) :: post)
    (hb : b.row_id ∉ (runGreedy score pre).matchedBank)
    (hl : l.row_id ∉ (runGreedy score pre).matchedLedger)
    (hs : fuzzy_match_threshold < score b.name_lower l.name_lower) :
    (b, l) ∈ (runGreedy score (candidatePairs bank ledger)).accepted
    ∧ (∀ t ∈ (perform_automatic_reconciliation score bank ledger).1, t.row_id ≠ b.row_id)
    ∧ (∀ t ∈ (perform_automatic_reconciliation score bank ledger).2, t.row_id ≠ l.row_id) := by
  have key : runGreedy score (candidatePairs bank ledger)
      = List.foldl (greedyStep score) (greedyStep score (runGreedy score pre) (b, l)) post := by
    rw [hc]
    unfold runGreedy
    rw [List.foldl_append, List.foldl_cons]
  have hstep : greedyStep score (runGreedy score pre) (b, l)
      = ⟨(runGreedy score pre).matchedBank ++ [b.row_id],
         (runGreedy score pre).matchedLedger ++ [l.row_id],
         (runGreedy score pre).accepted ++ [(b, l)]⟩ := by
    unfold greedyStep
    rw [if_neg (not_or.mpr ⟨hb, hl⟩), if_pos hs]
  have hmemacc : (b, l) ∈ (runGreedy score (candidatePairs bank ledger)).accepted := by
    rw [key]
    exact foldl_accepted_mono score post _ (by rw [hstep]; simp)
  have hmb : b.row_id ∈ (runGreedy score (candidatePairs bank ledger)).matchedBank := by
    rw [key]
    exact foldl_bank_mono score post _ (by rw [hstep]; simp)
  have hml : l.row_id ∈ (runGreedy score (candidatePairs bank ledger)).matchedLedger := by
    rw [key]
    exact foldl_ledger_mono score post _ (by rw [hstep]; simp)
  refine ⟨hmemacc, ?_, ?_⟩
  · intro t ht he
    have hnot : t.row_id ∉ (runGreedy score (candidatePairs bank ledger)).matchedBank := by
      simp only [perform_automatic_reconciliation, List.mem_filter, decide_eq_true_eq] at ht
      exact ht.2
    exact hnot (he ▸ hmb)
  · intro t ht he
    have hnot : t.row_id ∉ (runGreedy score (candidatePairs bank ledger)).matchedLedger := by
      simp only [perform_automatic_reconciliation, List.mem_filter, decide_eq_true_eq] at ht
      exact ht.2
    exact hnot (he ▸ hml)

/-- Witness for the amended C6: the Acme pair at score 81 is the sole
candidate, nothing was consumed before it, and it is accepted with both
transactions leaving the pools. -/
theorem fuzzy_above_threshold_accepted_witness :
    (candidatePairs [bAcme] [lAcme] = [] ++ (bAcme, lAcme) :: [])
    ∧ (bAcme.row_id ∉ (runGreedy (fun _ _ => 81) []).matchedBank)
    ∧ (lAcme.row_id ∉ (runGreedy (fun _ _ => 81) []).matchedLedger)
    ∧ (fuzzy_match_threshold < (fun _ _ => (81 : Nat)) bAcme.name_lower lAcme.name_lower)
    ∧ ((bAcme, lAcme) ∈ (runGreedy (fun _ _ => 81) (candidatePairs [bAcme] [lAcme])).accepted
      ∧ (∀ t ∈ (perform_automatic_reconciliation (fun _ _ => 81) [bAcme] [lAcme]).1,
          t.row_id ≠ bAcme.row_id)
      ∧ (∀ t ∈ (perform_automatic_reconciliation (fun _ _ => 81) [bAcme] [lAcme]).2,
          t.row_id ≠ lAcme.row_id)) :=
  ⟨by simp [cand_acme], by simp [runGreedy], by simp [runGreedy], by decide,
   fuzzy_above_threshold_accepted (fun _ _ => 81) [bAcme] [lAcme] [] [] bAcme lAcme
     (by simp [cand_acme]) (by simp [runGreedy]) (by simp [runGreedy]) (by decide)⟩

lemma filter_sel_ne_nil {sel : List Nat} {l : List Tx}
    (hne : sel ≠ []) (hp : ∀ i ∈ sel, i ∈ l.map Tx.row_id) :
    l.filter (fun t => decide (t.row_id ∈ sel)) ≠ [] := by
  obtain ⟨i, hi⟩ := List.exists_mem_of_ne_nil sel hne
  obtain ⟨t, ht, rfl⟩ := List.mem_map.mp (hp i hi)
  exact List.ne_nil_of_mem (List.mem_filter.mpr ⟨ht, by simpa using hi⟩)

/-- C1: a manual round with both selections non-empty, every submitted id
present in the corresponding unmatched list, and equal rounded selection sums,
succeeds and removes exactly the rows carrying the submitted ids from each
unmatched list, keeping every other row. -/
theorem manual_equal_sums_commit (selB selL : List Nat) (ub ul : List Tx)
    (hB : selB ≠ []) (hL : selL ≠ [])
    (hBp : ∀ i ∈ selB, i ∈ ub.map Tx.row_id) (hLp : ∀ i ∈ selL, i ∈ ul.map Tx.row_id)
    (hsum : round2 (((ub.filter (fun t => decide (t.row_id ∈ selB))).map Tx.amount).sum)
          = round2 (((ul.filter (fun t => decide (t.row_id ∈ selL))).map Tx.amount).sum)) :
    perform_manual_reconciliation selB selL ub ul
      = (.success selB.length selL.length
          (round2 (((ub.filter (fun t => decide (t.row_id ∈ selB))).map Tx.amount).sum))
          (round2 (((ul.filter (fun t => decide (t.row_id ∈ selL))).map Tx.amount).sum)),
         ub.filter (fun t => decide (t.row_id ∉ selB)),
         ul.filter (fun t => decide (t.row_id ∉ selL))) := by
  have hne : ¬(selB = [] ∨ selL = []) := not_or.mpr ⟨hB, hL⟩
  have hfound : ¬(ub.filter (fun t => decide (t.row_id ∈ selB)) = []
      ∨ ul.filter (fun t => decide (t.row_id ∈ selL)) = []) :=
    not_or.mpr ⟨filter_sel_ne_nil hB hBp, filter_sel_ne_nil hL hLp⟩
  simp only [perform_manual_reconciliation]
  rw [if_neg hne, if_neg hfound, if_pos hsum]

/-- Witness for C1: a single bank row of amount 5 against a single ledger row
of amount 5 is committed and both lists end empty of the submitted ids. -/
theorem manual_equal_sums_commit_witness :
    (([1] : List Nat) ≠ [] ∧ ([2] : List Nat) ≠ []
      ∧ (∀ i ∈ ([1] : List Nat), i ∈ [txBank5].map Tx.row_id)
      ∧ (∀ i ∈ ([2] : List Nat), i ∈ [txLedger5].map Tx.row_id)
      ∧ round2 ((([txBank5].filter (fun t => decide (t.row_id ∈ ([1] : List Nat)))).map
            Tx.amount).sum)
        = round2 ((([txLedger5].filter (fun t => decide (t.row_id ∈ ([2] : List Nat)))).map
            Tx.amount).sum))
    ∧ perform_manual_reconciliation [1] [2] [txBank5] [txLedger5]
      = (.success ([1] : List Nat).length ([2] : List Nat).length
          (round2 ((([txBank5].filter (fun t => decide (t.row_id ∈ ([1] : List Nat)))).map
            Tx.amount).sum))
          (round2 ((([txLedger5].filter (fun t => decide (t.row_id ∈ ([2] : List Nat)))).map
            Tx.amount).sum)),
         [txBank5].filter (fun t => decide (t.row_id ∉ ([1] : List Nat))),
         [txLedger5].filter (fun t => decide (t.row_id ∉ ([2] : List Nat)))) :=
  ⟨⟨by decide, by decide, by decide, by decide, by simp [txBank5, txLedger5]⟩,
   manual_equal_sums_commit [1] [2] [txBank5] [txLedger5] (by decide) (by decide)
     (by decide) (by decide) (by simp [txBank5, txLedger5])⟩

lemma round2_five_ne_six : round2 5 ≠ round2 6 := by
  norm_num [round2]

/-- C2: a manual round whose two selection sums differ after rounding mutates
no state — both unmatched lists are returned unchanged — and the reported
outcome carries the two rounded sums, whose absolute difference is the
discrepancy. -/
theorem manual_mismatch_no_mutation (selB selL : List Nat) (ub ul : List Tx)
    (hB : selB ≠ []) (hL : selL ≠ [])
    (hBp : ∀ i ∈ selB, i ∈ ub.map Tx.row_id) (hLp : ∀ i ∈ selL, i ∈ ul.map Tx.row_id)
    (hsum : round2 (((ub.filter (fun t => decide (t.row_id ∈ selB))).map Tx.amount).sum)
          ≠ round2 (((ul.filter (fun t => decide (t.row_id ∈ selL))).map Tx.amount).sum)) :
    perform_manual_reconciliation selB selL ub ul
      = (.mismatch
          (round2 (((ub.filter (fun t => decide (t.row_id ∈ selB))).map Tx.amount).sum))
          (round2 (((ul.filter (fun t => decide (t.row_id ∈ selL))).map Tx.amount).sum)),
         ub, ul)
    ∧ (perform_manual_reconciliation selB selL ub ul).1.discrepancy
      = |round2 (((ub.filter (fun t => decide (t.row_id ∈ selB))).map Tx.amount).sum)
          - round2 (((ul.filter (fun t => decide (t.row_id ∈ selL))).map Tx.amount).sum)| := by
  have hne : ¬(selB = [] ∨ selL = []) := not_or.mpr ⟨hB, hL⟩
  have hfound : ¬(ub.filter (fun t => decide (t.row_id ∈ selB)) = []
      ∨ ul.filter (fun t => decide (t.row_id ∈ selL)) = []) :=
    not_or.mpr ⟨filter_sel_ne_nil hB hBp, filter_sel_ne_nil hL hLp⟩
  have heq : perform_manual_reconciliation selB selL ub ul
      = (.mismatch
          (round2 (((ub.filter (fun t => decide (t.row_id ∈ selB))).map Tx.amount).sum))
          (round2 (((ul.filter (fun t => decide (t.row_id ∈ selL))).map Tx.amount).sum)),
         ub, ul) := by
    simp only [perform_manual_reconciliation]
    rw [if_neg hne, if_neg hfound, if_neg hsum]
  exact ⟨heq, by rw [heq]; rfl⟩

/-- Witness for C2: amounts 5 versus 6 differ after rounding; the round is
rejected with both lists unchanged and discrepancy equal to the absolute
difference of the reported sums. -/
theorem manual_mismatch_no_mutation_witness :
    (([1] : List Nat) ≠ [] ∧ ([2] : List Nat) ≠ []
      ∧ (∀ i ∈ ([1] : List Nat), i ∈ [txBank5].map Tx.row_id)
      ∧ (∀ i ∈ ([2] : List Nat), i ∈ [txLedger6].map Tx.row_id)
      ∧ round2 ((([txBank5].filter (fun t => decide (t.row_id ∈ ([1] : List Nat)))).map
            Tx.amount).sum)
        ≠ round2 ((([txLedger6].filter (fun t => decide (t.row_id ∈ ([2] : List Nat)))).map
            Tx.amount).sum))
    ∧ (perform_manual_reconciliation [1] [2] [txBank5] [txLedger6]
      = (.mismatch
          (round2 ((([txBank5].filter (fun t => decide (t.row_id ∈ ([1] : List Nat)))).map
            Tx.amount).sum))
          (round2 ((([txLedger6].filter (fun t => decide (t.row_id ∈ ([2] : List Nat)))).map
            Tx.amount).sum)),
         [txBank5], [txLedger6])
      ∧ (perform_manual_reconciliation [1] [2] [txBank5] [txLedger6]).1.discrepancy
        = |round2 ((([txBank5].filter (fun t => decide (t.row_id ∈ ([1] : List Nat)))).map
            Tx.amount).sum)
          - round2 ((([txLedger6].filter (fun t => decide (t.row_id ∈ ([2] : List Nat)))).map
            Tx.amount).sum)|) :=
  ⟨⟨by decide, by decide, by decide, by decide, by simp [txBank5, txLedger6, round2_five_ne_six]⟩,
   manual_mismatch_no_mutation [1] [2] [txBank5] [txLedger6] (by decide) (by decide)
     (by decide) (by decide) (by simp [txBank5, txLedger6, round2_five_ne_six])⟩

/-- Counterexample to C7: id 99 is submitted but absent from the unmatched
bank list, yet the round does not fail — the absent id is silently ignored,
the sums of the found items agree, and the round succeeds and mutates state. -/
theorem stale_id_counterexample :
    ((99 : Nat) ∈ ([1, 99] : List Nat) ∧ (99 : Nat) ∉ [txBank5].map Tx.row_id)
    ∧ perform_manual_reconciliation [1, 99] [2] [txBank5] [txLedger5]
      = (.success 2 1 (round2 ((5 : Rat) + 0)) (round2 ((5 : Rat) + 0)), [], []) := by
  refine ⟨⟨by decide, by decide⟩, ?_⟩
  simp [perform_manual_reconciliation, txBank5, txLedger5]

/-- C7 as amended: the round fails with the not-found error and leaves both
lists unchanged when, on at least one side, none of the submitted ids is
present in that side's current unmatched list (both selections non-empty);
submitted ids missing from a selection that still finds at least one row on
each side are silently ignored instead. -/
theorem stale_side_notFound (selB selL : List Nat) (ub ul : List Tx)
    (hB : selB ≠ []) (hL : selL ≠ [])
    (h : (∀ t ∈ ub, t.row_id ∉ selB) ∨ (∀ t ∈ ul, t.row_id ∉ selL)) :
    perform_manual_reconciliation selB selL ub ul = (.notFound, ub, ul) := by
  have hne : ¬(selB = [] ∨ selL = []) := not_or.mpr ⟨hB, hL⟩
  have hfound : ub.filter (fun t => decide (t.row_id ∈ selB)) = []
      ∨ ul.filter (fun t => decide (t.row_id ∈ selL)) = [] := by
    rcases h with h | h
    · exact Or.inl (List.filter_eq_nil_iff.mpr (fun t ht => by simpa using h t ht))
    · exact Or.inr (List.filter_eq_nil_iff.mpr (fun t ht => by simpa using h t ht))
  simp only [perform_manual_reconciliation]
  rw [if_neg hne, if_pos hfound]

/-- Witness for the amended C7: submitting only the absent id 99 on the bank
side makes the round fail with the not-found outcome and no state change. -/
theorem stale_side_notFound_witness :
    (([99] : List Nat) ≠ [] ∧ ([2] : List Nat) ≠ []
      ∧ ((∀ t ∈ [txBank5], t.row_id ∉ ([99] : List Nat))
        ∨ (∀ t ∈ [txLedger5], t.row_id ∉ ([2] : List Nat))))
    ∧ perform_manual_reconciliation [99] [2] [txBank5] [txLedger5]
      = (.notFound, [txBank5], [txLedger5]) :=
  ⟨⟨by decide, by decide, Or.inl (by decide)⟩,
   stale_side_notFound [99] [2] [txBank5] [txLedger5] (by decide) (by decide)
     (Or.inl (by decide))⟩

lemma map_filter_rowid (l : List Tx) (p : Nat → Prop) [DecidablePred p] :
    (l.filter (fun t => decide (p t.row_id))).map Tx.row_id
      = (l.map Tx.row_id).filter (fun i => decide (p i)) := by
  induction l with
  | nil => rfl
  | cons t ts ih =>
    by_cases h : p t.row_id <;> simp [h, ih]

lemma filter_not_mem_partition (l : List Tx) (m : List Nat)
    (hm : m.Nodup) (hsub : ∀ x ∈ m, x ∈ l.map Tx.row_id) (hl : (l.map Tx.row_id).Nodup) :
    ((l.filter (fun t => decide (t.row_id ∉ m))).map Tx.row_id ++ m).Perm (l.map Tx.row_id) := by
  rw [map_filter_rowid l (fun i => i ∉ m)]
  refine (List.perm_ext_iff_of_nodup ?_ hl).mpr ?_
  · rw [List.nodup_append]
    refine ⟨hl.filter _, hm, ?_⟩
    intro x hx hxm
    have := (List.mem_filter.mp hx).2
    simp only [decide_eq_true_eq] at this
    exact this hxm
  · intro x
    simp only [List.mem_append, List.mem_filter, decide_eq_true_eq]
    constructor
    · rintro (⟨hx, _⟩ | hx)
      · exact hx
      · exact hsub x hx
    · intro hx
      by_cases hxm : x ∈ m
      · exact Or.inr hxm
      · exact Or.inl ⟨hx, hxm⟩

lemma remove_commit_perm (l : List Tx) (sel m orig : List Nat)
    (hperm : (l.map Tx.row_id ++ m).Perm orig)
    (hnd : (l.map Tx.row_id ++ m).Nodup) :
    (((l.filter (fun t => decide (t.row_id ∉ sel))).map Tx.row_id
        ++ (m ++ (l.filter (fun t => decide (t.row_id ∈ sel))).map Tx.row_id)).Perm orig)
    ∧ ((l.filter (fun t => decide (t.row_id ∉ sel))).map Tx.row_id
        ++ (m ++ (l.filter (fun t => decide (t.row_id ∈ sel))).map Tx.row_id)).Nodup := by
  have hsplit : ((l.map Tx.row_id).filter (fun i => decide (i ∉ sel))
      ++ (l.map Tx.row_id).filter (fun i => decide (i ∈ sel))).Perm (l.map Tx.row_id) := by
    have hneg : (fun i : Nat => decide (i ∉ sel)) = (fun i => ! decide (i ∈ sel)) := by
      funext i
      simp [decide_not]
    rw [hneg]
    exact List.Perm.trans List.perm_append_comm
      (List.filter_append_perm (fun i => decide (i ∈ sel)) (l.map Tx.row_id))
  have hmain : ((l.filter (fun t => decide (t.row_id ∉ sel))).map Tx.row_id
      ++ (m ++ (l.filter (fun t => decide (t.row_id ∈ sel))).map Tx.row_id)).Perm
      (l.map Tx.row_id ++ m) := by
    rw [map_filter_rowid l (fun i => i ∉ sel), map_filter_rowid l (fun i => i ∈ sel)]
    refine List.Perm.trans (List.Perm.append_left _ List.perm_append_comm) ?_
    rw [← List.append_assoc]
    exact List.Perm.append_right m hsplit
  exact ⟨hmain.trans hperm, hmain.nodup_iff.mpr hnd⟩

/-- Closed-world invariant of the engine state relative to the two original
transaction lists: on each side, the unmatched ids together with the committed
matched ids are a duplicate-free permutation of the original ids. -/
def EngineInv (bank ledger : List Tx) (e : Engine) : Prop :=
  ((e.ub.map Tx.row_id ++ e.matchedBankIds).Perm (bank.map Tx.row_id)
    ∧ (e.ub.map Tx.row_id ++ e.matchedBankIds).Nodup)
  ∧ ((e.ul.map Tx.row_id ++ e.matchedLedgerIds).Perm (ledger.map Tx.row_id)
    ∧ (e.ul.map Tx.row_id ++ e.matchedLedgerIds).Nodup)

lemma matchedBank_sub (score : String → String → Nat) (bank ledger : List Tx) :
    ∀ x ∈ (runGreedy score (candidatePairs bank ledger)).matchedBank, x ∈ bank.map Tx.row_id := by
  intro x hx
  obtain ⟨h1, _, _, _⟩ := runGreedy_inv score (candidatePairs bank ledger)
  rw [h1] at hx
  obtain ⟨p, hp, rfl⟩ := List.mem_map.mp hx
  have := (runGreedy_accepted_sublist score (candidatePairs bank ledger)).subset hp
  exact List.mem_map.mpr ⟨p.1, (mem_candidatePairs this).1, rfl⟩

lemma matchedLedger_sub (score : String → String → Nat) (bank ledger : List Tx) :
    ∀ x ∈ (runGreedy score (candidatePairs bank ledger)).matchedLedger,
      x ∈ ledger.map Tx.row_id := by
  intro x hx
  obtain ⟨_, h2, _, _⟩ := runGreedy_inv score (candidatePairs bank ledger)
  rw [h2] at hx
  obtain ⟨p, hp, rfl⟩ := List.mem_map.mp hx
  have := (runGreedy_accepted_sublist score (candidatePairs bank ledger)).subset hp
  exact List.mem_map.mpr ⟨p.2, (mem_candidatePairs this).2.1, rfl⟩

lemma initEngine_inv (score : String → String → Nat) (bank ledger : List Tx)
    (hB : (bank.map Tx.row_id).Nodup) (hL : (ledger.map Tx.row_id).Nodup) :
    EngineInv bank ledger (initEngine score bank ledger) := by
  obtain ⟨_, _, h3, h4⟩ := runGreedy_inv score (candidatePairs bank ledger)
  have hpB := filter_not_mem_partition bank
    (runGreedy score (candidatePairs bank ledger)).matchedBank h3
    (matchedBank_sub score bank ledger) hB
  have hpL := filter_not_mem_partition ledger
    (runGreedy score (candidatePairs bank ledger)).matchedLedger h4
    (matchedLedger_sub score bank ledger) hL
  exact ⟨⟨hpB, hpB.nodup_iff.mpr hB⟩, ⟨hpL, hpL.nodup_iff.mpr hL⟩⟩

lemma perform_manual_shape (selB selL : List Nat) (ub ul : List Tx) :
    perform_manual_reconciliation selB selL ub ul = (.emptySelection, ub, ul)
    ∨ perform_manual_reconciliation selB selL ub ul = (.notFound, ub, ul)
    ∨ (∃ bt lt, perform_manual_reconciliation selB selL ub ul = (.mismatch bt lt, ub, ul))
    ∨ (∃ nB nL bt lt, perform_manual_reconciliation selB selL ub ul
        = (.success nB nL bt lt,
           ub.filter (fun t => decide (t.row_id ∉ selB)),
           ul.filter (fun t => decide (t.row_id ∉ selL)))) := by
  simp only [perform_manual_reconciliation]
  split
  · exact Or.inl rfl
  · split
    · exact Or.inr (Or.inl rfl)
    · split
      · exact Or.inr (Or.inr (Or.inr ⟨_, _, _, _, rfl⟩))
      · exact Or.inr (Or.inr (Or.inl ⟨_, _, rfl⟩))

lemma engineManualStep_inv (sel : List Nat × List Nat) (bank ledger : List Tx) (e : Engine)
    (h : EngineInv bank ledger e) : EngineInv bank ledger (engineManualStep sel e) := by
  obtain ⟨⟨hpB, hnB⟩, ⟨hpL, hnL⟩⟩ := h
  rcases perform_manual_shape sel.1 sel.2 e.ub e.ul with hr | hr | ⟨bt, lt, hr⟩ | ⟨nB, nL, bt, lt, hr⟩
  · simp only [engineManualStep, hr]
    exact ⟨⟨hpB, hnB⟩, ⟨hpL, hnL⟩⟩
  · simp only [engineManualStep, hr]
    exact ⟨⟨hpB, hnB⟩, ⟨hpL, hnL⟩⟩
  · simp only [engineManualStep, hr]
    exact ⟨⟨hpB, hnB⟩, ⟨hpL, hnL⟩⟩
  · simp only [engineManualStep, hr]
    exact ⟨remove_commit_perm e.ub sel.1 e.matchedBankIds (bank.map Tx.row_id) hpB hnB,
           remove_commit_perm e.ul sel.2 e.matchedLedgerIds (ledger.map Tx.row_id) hpL hnL⟩

lemma runEngine_inv (score : String → String → Nat) (bank ledger : List Tx)
    (rounds : List (List Nat × List Nat))
    (hB : (bank.map Tx.row_id).Nodup) (hL : (ledger.map Tx.row_id).Nodup) :
    EngineInv bank ledger (runEngine score bank ledger rounds) := by
  unfold runEngine
  have hinit := initEngine_inv score bank ledger hB hL
  generalize initEngine score bank ledger = e0 at hinit
  induction rounds generalizing e0 with
  | nil => exact hinit
  | cons r rs ih => exact ih _ (engineManualStep_inv r bank ledger e0 hinit)

/-- C3: closed-world invariant — after the automatic pass and any sequence of
manual rounds, each side's unmatched ids together with the ids committed as
matched form a duplicate-free permutation of that side's original ids: no id
is lost, duplicated, fabricated, or present on both sides of the partition. -/
theorem closed_world_partition (score : String → String → Nat) (bank ledger : List Tx)
    (rounds : List (List Nat × List Nat))
    (hB : (bank.map Tx.row_id).Nodup) (hL : (ledger.map Tx.row_id).Nodup) :
    (((runEngine score bank ledger rounds).ub.map Tx.row_id
        ++ (runEngine score bank ledger rounds).matchedBankIds).Perm (bank.map Tx.row_id)
      ∧ ((runEngine score bank ledger rounds).ub.map Tx.row_id
        ++ (runEngine score bank ledger rounds).matchedBankIds).Nodup)
    ∧ (((runEngine score bank ledger rounds).ul.map Tx.row_id
        ++ (runEngine score bank ledger rounds).matchedLedgerIds).Perm (ledger.map Tx.row_id)
      ∧ ((runEngine score bank ledger rounds).ul.map Tx.row_id
        ++ (runEngine score bank ledger rounds).matchedLedgerIds).Nodup) :=
  runEngine_inv score bank ledger rounds hB hL

/-- Witness for C3: one bank row and one ledger row, auto pass at score 0
matching nothing, then one successful manual round committing both. -/
theorem closed_world_partition_witness :
    (([txBank5].map Tx.row_id).Nodup ∧ ([txLedger5].map Tx.row_id).Nodup)
    ∧ ((((runEngine (fun _ _ => 0) [txBank5] [txLedger5] [([1], [2])]).ub.map Tx.row_id
        ++ (runEngine (fun _ _ => 0) [txBank5] [txLedger5] [([1], [2])]).matchedBankIds).Perm
          ([txBank5].map Tx.row_id)
      ∧ ((runEngine (fun _ _ => 0) [txBank5] [txLedger5] [([1], [2])]).ub.map Tx.row_id
        ++ (runEngine (fun _ _ => 0) [txBank5] [txLedger5] [([1], [2])]).matchedBankIds).Nodup)
    ∧ (((runEngine (fun _ _ => 0) [txBank5] [txLedger5] [([1], [2])]).ul.map Tx.row_id
        ++ (runEngine (fun _ _ => 0) [txBank5] [txLedger5] [([1], [2])]).matchedLedgerIds).Perm
          ([txLedger5].map Tx.row_id)
      ∧ ((runEngine (fun _ _ => 0) [txBank5] [txLedger5] [([1], [2])]).ul.map Tx.row_id
        ++ (runEngine (fun _ _ => 0) [txBank5] [txLedger5] [([1], [2])]).matchedLedgerIds).Nodup)) :=
  ⟨⟨by decide, by decide⟩,
   closed_world_partition (fun _ _ => 0) [txBank5] [txLedger5] [([1], [2])]
     (by decide) (by decide)⟩

lemma stage_filters_eq (mode : AmountMode) (rows : List RawRow) :
    ((((rows.filter (fun r => r.dateCell.isSome)).map
        (fun r => (r, rowAmount mode r))).filter (fun p => p.2.isSome)).filter
        (fun p => decide (p.2 ≠ some 0)))
      = (rows.filter (keepRow mode)).map (fun r => (r, rowAmount mode r)) := by
  induction rows with
  | nil => rfl
  | cons r rs ih =>
    by_cases h1 : r.dateCell.isSome
    · by_cases h2 : (rowAmount mode r).isSome
      · by_cases h3 : rowAmount mode r = some 0
        · rw [List.filter_cons_of_pos (by simpa using h1), List.map_cons,
            List.filter_cons_of_pos (by simpa using h2),
            List.filter_cons_of_neg (by simp [h3]),
            List.filter_cons_of_neg (by simp [keepRow, h1, h2, h3]), ih]
        · rw [List.filter_cons_of_pos (by simpa using h1), List.map_cons,
            List.filter_cons_of_pos (by simpa using h2),
            List.filter_cons_of_pos (by simp [h3]),
            List.filter_cons_of_pos (by simp [keepRow, h1, h2, h3]), List.map_cons, ih]
      · rw [List.filter_cons_of_pos (by simpa using h1), List.map_cons,
          List.filter_cons_of_neg (by simpa using h2),
          List.filter_cons_of_neg (by simp [keepRow, h1, h2]), ih]
    · rw [List.filter_cons_of_neg (by simpa using h1),
        List.filter_cons_of_neg (by simp [keepRow, h1]), ih]

lemma mkTxs_map (ids : Nat → Nat) (mode : AmountMode) (l : List RawRow) :
    ∀ k, mkTxs ids k (l.map (fun r => (r, rowAmount mode r))) = txsFromRows ids mode k l := by
  induction l with
  | nil => intro _; rfl
  | cons r rs ih =>
    intro k
    simp only [List.map_cons, mkTxs, txsFromRows, txFromRow]
    exact congrArg _ (ih (k + 1))

/-- C8: the normalizer keeps exactly the rows whose date parses, whose amount
is obtainable, and whose obtained amount is nonzero — in order, each mapped to
its transaction — dropping every other row silently (the pipeline is a total
function); in the debit/credit mode the amount is always derived as
credit − debit with unparseable cells read as 0, so a row there survives
exactly when its date parses and the derived amount is nonzero. -/
theorem normalizer_keeps_iff (ids : Nat → Nat) (mode : AmountMode) (rows : List RawRow) :
    load_and_preprocess ids mode rows = txsFromRows ids mode 0 (rows.filter (keepRow mode))
    ∧ (∀ r : RawRow, keepRow AmountMode.debitCredit r
        = (r.dateCell.isSome && decide (r.creditCell.getD 0 - r.debitCell.getD 0 ≠ 0))) := by
  constructor
  · simp only [load_and_preprocess]
    rw [stage_filters_eq, mkTxs_map]
  · intro r
    simp [keepRow, rowAmount]

lemma txsFromRows_eraseId (ids1 ids2 : Nat → Nat) (mode : AmountMode) (l : List RawRow) :
    ∀ k1 k2, (txsFromRows ids1 mode k1 l).map eraseId
      = (txsFromRows ids2 mode k2 l).map eraseId := by
  induction l with
  | nil => intro _ _; rfl
  | cons r rs ih =>
    intro k1 k2
    simp only [txsFromRows, List.map_cons, eraseId, txFromRow]
    exact congrArg _ (ih (k1 + 1) (k2 + 1))

/-- C9: normalizing the same raw rows twice (with different fresh-id supplies)
yields transaction lists of the same length, in the same order, equal in every
field except the assigned id. -/
theorem normalization_idempotent (ids1 ids2 : Nat → Nat) (mode : AmountMode)
    (rows : List RawRow) :
    (load_and_preprocess ids1 mode rows).map eraseId
      = (load_and_preprocess ids2 mode rows).map eraseId := by
  simp only [load_and_preprocess]
  rw [stage_filters_eq, mkTxs_map, mkTxs_map]
  exact txsFromRows_eraseId ids1 ids2 mode _ 0 0

lemma runRounds_full (rounds : List (List Nat × List Nat)) :
    ∀ s : Session, (runRounds rounds s).bank_df_full = s.bank_df_full
      ∧ (runRounds rounds s).ledger_df_full = s.ledger_df_full := by
  induction rounds with
  | nil => intro _; exact ⟨rfl, rfl⟩
  | cons r rs ih =>
    intro s
    obtain ⟨h1, h2⟩ := ih (sessionManualStep r s)
    exact ⟨h1, h2⟩

/-- C10: the displayed totals are computed over the full normalized frames of
each side — which include the auto-matched transactions — not over the
unmatched lists; the difference is the signed value bank − ledger; and all
three are unchanged by the automatic pass and by every manual round. -/
theorem totals_over_full_frames (score : String → String → Nat) (bank ledger : List Tx)
    (rounds : List (List Nat × List Nat)) :
    bank_total (runRounds rounds (loadSession score bank ledger)) = (bank.map Tx.amount).sum
    ∧ ledger_total (runRounds rounds (loadSession score bank ledger))
      = (ledger.map Tx.amount).sum
    ∧ difference (runRounds rounds (loadSession score bank ledger))
      = (bank.map Tx.amount).sum - (ledger.map Tx.amount).sum := by
  obtain ⟨h1, h2⟩ := runRounds_full rounds (loadSession score bank ledger)
  have hb : bank_total (runRounds rounds (loadSession score bank ledger))
      = (bank.map Tx.amount).sum := by
    unfold bank_total
    rw [h1]
    rfl
  have hl : ledger_total (runRounds rounds (loadSession score bank ledger))
      = (ledger.map Tx.amount).sum := by
    unfold ledger_total
    rw [h2]
    rfl
  exact ⟨hb, hl, by unfold difference; rw [hb, hl]⟩

end Recon
